import Mathlib

/-!
Verification of the HealthJobsUK emergency-jobs tracker (`src/tracker.js`)
against its natural-language specification.

The single source file is embedded shallowly:

* `JobRecord` is the flat record pushed by the in-page extraction
  (`tracker.js` lines 78-88).
* String helpers (`trimStr`, `stripQuery`, `slug`, `removeFirstStr`) model
  the JavaScript string operations used there (`String.prototype.trim`,
  `href.split` on a question mark, `toLowerCase` plus the
  `[^a-z0-9]+` global replacement, and single-occurrence `replace`).
  They are written over `List Char` so that every definition reduces in
  the kernel.
* `extractOne` / `extract` model the `forEach` body over listing elements
  (lines 70-89); a DOM element is abstracted as `Elem`, whose fields are
  `Option String` (a missing node or null text is `none`).
* The differ (lines 102-103 and 116-118) is `diffNew` / `mergeJobs`,
  with JavaScript `Map.set` insertion-order semantics modelled by `mapSet`
  on an association list.
* Persistence (lines 98 and 120) is modelled at the level of the parsed
  JSON document (`Json`), since text rendering/parsing is the standard
  library the script calls, declared an external collaborator by the spec.
* The control flow of `runTracker` (lines 37-148) and of the top-level
  `runTracker().catch(() => process.exit(1))` (line 150) is embedded as a
  function from an environment of external outcomes (`Env`) to the list of
  observable events (`Ev`) plus a final result (`RunResult`).
-/

namespace Tracker

/-- One job posting, exactly the object literal pushed at
`tracker.js` lines 78-88 (with `scrapedAt` supplied by the caller). -/
structure JobRecord where
  id : String
  title : String
  grade : String
  employer : String
  location : String
  speciality : String
  salary : String
  link : String
  scrapedAt : String
deriving DecidableEq, Repr

/-! ## String helpers (kernel-reducible models of the JS string methods) -/

/-- Model of `String.prototype.trim`: strip whitespace from both ends. -/
def trimStr (s : String) : String :=
  ⟨((s.data.dropWhile Char.isWhitespace).reverse.dropWhile Char.isWhitespace).reverse⟩

/-- Model of `href.split` at the first question mark, keeping segment 0:
the characters before the first question mark. -/
def stripQuery (s : String) : String :=
  ⟨s.data.takeWhile (fun c => c != '?')⟩

/-- A character kept verbatim by the slug regex `[^a-z0-9]+`:
a lowercase ASCII letter or digit. -/
def isSlugChar (c : Char) : Bool :=
  (('a' ≤ c) && (c ≤ 'z')) || (('0' ≤ c) && (c ≤ '9'))

/-- Core of the slug replacement: each maximal run of characters not in
`[a-z0-9]` collapses to a single hyphen (the `inRun` flag records that the
current run already emitted its hyphen). -/
def slugGo : List Char → Bool → List Char
  | [], _ => []
  | c :: cs, inRun =>
    if isSlugChar c then c :: slugGo cs false
    else if inRun then slugGo cs true
    else '-' :: slugGo cs true

/-- Model of `title.toLowerCase().replace` with the global pattern
`[^a-z0-9]+` and replacement hyphen (`tracker.js` line 79). -/
def slug (t : String) : String :=
  ⟨slugGo (t.data.map Char.toLower) false⟩

/-- Remove the first occurrence of `pat` from `s` (JS
`String.prototype.replace` with a plain-string pattern and empty
replacement replaces only the first occurrence). -/
def removeFirstAux (pat : List Char) : List Char → List Char
  | [] => []
  | c :: cs =>
    if pat.isPrefixOf (c :: cs) then (c :: cs).drop pat.length
    else c :: removeFirstAux pat cs

/-- String wrapper for `removeFirstAux`. -/
def removeFirstStr (s pat : String) : String :=
  ⟨removeFirstAux pat.data s.data⟩

/-- Bool test for a leading slash, modelling `href.startsWith` at
`tracker.js` line 76. -/
def startsWithSlash (s : String) : Bool :=
  match s.data with
  | '/' :: _ => true
  | _ => false

/-! ## Extraction (`page.evaluate` body, lines 68-91) -/

/-- A listing element (`li.hj-job`), abstracted to the texts the script
reads from it. `none` models a missing child node or null `textContent`;
`linkHref` is the `href` attribute of the first anchor (`none` when the
anchor or the attribute is absent, which the script turns into the empty
string). -/
structure Elem where
  linkHref : Option String
  title : Option String
  grade : Option String
  employer : Option String
  location : Option String
  speciality : Option String
  salary : Option String
deriving DecidableEq, Repr

/-- `node?.textContent?.trim() || ''` for a plain field. -/
def optText (f : Option String) : String :=
  match f with
  | none => ""
  | some s => trimStr s

/-- `node?.textContent?.trim().replace(label, '').trim() || ''` for the
speciality and salary fields (lines 84-85). -/
def labelText (label : String) (f : Option String) : String :=
  match f with
  | none => ""
  | some s => trimStr (removeFirstStr (trimStr s) label)

/-- `href.split` at the question mark, segment 0, with the slug fallback
when that segment is empty (line 79). The fallback fires exactly when the
pre-query part of the href is the empty string, which is falsy in JS. -/
def deriveId (href title : String) : String :=
  if stripQuery href = "" then slug title else stripQuery href

/-- One iteration of the `forEach` at lines 70-89: `none` models the early
`return` on an empty title, otherwise the pushed record. -/
def extractOne (baseUrl : String) (e : Elem) (now : String) : Option JobRecord :=
  let title := optText e.title
  if title = "" then none
  else
    let href := e.linkHref.getD ""
    let fullUrl := if startsWithSlash href then baseUrl ++ href else href
    some
      { id := deriveId href title
        title := title
        grade := optText e.grade
        employer := optText e.employer
        location := optText e.location
        speciality := labelText "Speciality:" e.speciality
        salary := labelText "Salary:" e.salary
        link := fullUrl
        scrapedAt := now }

/-- The whole extraction pass: elements whose title is empty contribute
nothing; the others contribute their record, in DOM order. -/
def extract (baseUrl : String) (es : List Elem) (now : String) : List JobRecord :=
  es.filterMap (fun e => extractOne baseUrl e now)

/-! ## Differ (lines 102-103 and 116-118) -/

/-- `jobs.filter(j => !previousIds.has(j.id))` where `previousIds` is the
set of ids of the previous store (line 102-103). -/
def diffNew (cur prev : List JobRecord) : List JobRecord :=
  cur.filter (fun j => ! ((prev.map JobRecord.id).contains j.id))

/-- JavaScript `Map.prototype.set` on an association list: overwrite in
place when the key is present (keeping insertion order), append otherwise. -/
def mapSet (m : List (String × JobRecord)) (k : String) (v : JobRecord) :
    List (String × JobRecord) :=
  if k ∈ m.map Prod.fst then m.map (fun p => if p.1 = k then (k, v) else p)
  else m ++ [(k, v)]

/-- `l.forEach(j => mergedJobs.set(j.id, j))` starting from map `m`. -/
def setAll (m : List (String × JobRecord)) (l : List JobRecord) :
    List (String × JobRecord) :=
  l.foldl (fun acc j => mapSet acc j.id j) m

/-- Lines 116-118: an empty `Map`, then all previous records, then all
current records, each keyed by its id. -/
def mergeJobs (prev cur : List JobRecord) : List (String × JobRecord) :=
  setAll (setAll [] prev) cur

/-- The last record of `l` whose id is `a`, if any (what a sequence of
`Map.set` calls leaves under key `a`). -/
def lastWith (l : List JobRecord) (a : String) : Option JobRecord :=
  (l.filter (fun r => r.id == a)).getLast?

/-! ## Persistence (lines 96-99, 119-120), modelled at the parsed-JSON level -/

/-- A parsed JSON document. Text rendering and parsing are performed by
`JSON.stringify` / `JSON.parse`, library calls the spec lists among the
out-of-scope thin I/O wrappers, so the file content is modelled as the
parsed value itself. -/
inductive Json where
  | null : Json
  | bool (b : Bool) : Json
  | num (n : Int) : Json
  | str (s : String) : Json
  | arr (l : List Json) : Json
  | obj (l : List (String × Json)) : Json

/-- Property access `j.k` on a parsed JSON value: a field of an object,
`undefined` (here `none`) otherwise. -/
def jsonField (j : Json) (k : String) : Option Json :=
  match j with
  | .obj l => l.lookup k
  | _ => none

/-- `j.id` when it is a string, else `none` (a missing or non-string id
can never equal the string id of a scraped job under the SameValueZero
comparison used by `Set.prototype.has`). -/
def jsonIdStr (j : Json) : Option String :=
  match jsonField j "id" with
  | some (.str s) => some s
  | _ => none

/-- Is the top-level JSON value an array? (`previousJobs.map` exists
exactly on arrays.) -/
def isArr (j : Json) : Bool :=
  match j with
  | .arr _ => true
  | _ => false

/-- Object-field lookup that insists on a string value. -/
def getStr (l : List (String × Json)) (k : String) : Option String :=
  match l.lookup k with
  | some (.str s) => some s
  | _ => none

/-- The JSON object `JSON.stringify` produces for one record: its nine
fields, in the order of the object literal at lines 78-88. -/
def encodeJob (r : JobRecord) : Json :=
  .obj
    [("id", .str r.id), ("title", .str r.title), ("grade", .str r.grade),
     ("employer", .str r.employer), ("location", .str r.location),
     ("speciality", .str r.speciality), ("salary", .str r.salary),
     ("link", .str r.link), ("scrapedAt", .str r.scrapedAt)]

/-- The JSON document written at line 120: the array of merged records. -/
def encodeJobs (l : List JobRecord) : Json :=
  .arr (l.map encodeJob)

/-- Read one record back from a parsed JSON element. -/
def decodeJob (j : Json) : Option JobRecord :=
  match j with
  | .obj l =>
    match getStr l "id", getStr l "title", getStr l "grade",
        getStr l "employer", getStr l "location", getStr l "speciality",
        getStr l "salary", getStr l "link", getStr l "scrapedAt" with
    | some id, some title, some grade, some employer, some location,
        some speciality, some salary, some link, some scrapedAt =>
      some ⟨id, title, grade, employer, location, speciality, salary, link,
        scrapedAt⟩
    | _, _, _, _, _, _, _, _, _ => none
  | _ => none

/-- Decode a list of parsed JSON elements, failing if any element fails. -/
def decodeJobsList : List Json → Option (List JobRecord)
  | [] => some []
  | j :: t =>
    match decodeJob j, decodeJobsList t with
    | some r, some rs => some (r :: rs)
    | _, _ => none

/-- Read a whole record store back from a parsed JSON document. -/
def decodeJobs (j : Json) : Option (List JobRecord) :=
  match j with
  | .arr l => decodeJobsList l
  | _ => none

/-! ## The run (`runTracker`, lines 37-148, and line 150) -/

/-- `CONFIG.baseUrl` (line 28). -/
def baseUrl : String := "https://www.healthjobsuk.com"

/-- Observable events of one run, in the order they are performed. -/
inductive Ev where
  | launch : Ev
  | notifyJob (id : String) : Ev
  | persist : Ev
  | notifySummary : Ev
  | notifyFailure (msg : String) : Ev
  | closeBrowser : Ev
deriving DecidableEq, Repr

/-- Outcomes of the external calls a run makes, plus the configuration it
reads. A missing environment variable is modelled as the empty string
(both are falsy in the `!CONFIG.telegramBotToken` test at line 42). -/
structure Env where
  token : String
  chatId : String
  launchOk : Except String Unit
  ctxOk : Except String Unit
  pageOk : Except String Unit
  navOk : Except String Unit
  evalOk : Except String (List Elem)
  fileContent : Option Json
  writeOk : Except String Unit
  notifyOk : Nat → Bool
  now : String

/-- The message of the `TypeError` raised when `previousJobs.map` is
called on a non-array (line 102 after a successful non-array parse). -/
def mapErrMsg : String := "previousJobs.map is not a function"

/-- Text of the failure notification sent by the catch block
(lines 141-143). -/
def failMsg (m : String) : String :=
  "❌ <b>HealthJobs Tracker Failed</b>: " ++ m

/-- `jobs.filter(j => !previousIds.has(j.id))` against the parsed previous
array (whose elements need not be well-formed records). -/
def newJobsOf (jobs : List JobRecord) (prev : List Json) : List JobRecord :=
  jobs.filter (fun j => ! ((prev.map jsonIdStr).contains (some j.id)))

/-- The body of the `try` block (lines 54-137): navigation, scraping, the
state-file read (a read or parse error leaves the empty array of line 96),
the id-set construction that throws on a non-array top level, the
per-record notification loop, the store write, and the summary
notification. Each `axios.post` has a `.catch` that swallows its outcome,
so the events do not depend on `Env.notifyOk`. -/
def tryBody (env : Env) : List Ev × Except String Unit :=
  match env.navOk with
  | .error m => ([], .error m)
  | .ok _ =>
    match env.evalOk with
    | .error m => ([], .error m)
    | .ok elems =>
      match env.fileContent.getD (Json.arr []) with
      | .arr prev =>
        let jobs := extract baseUrl elems env.now
        let notifyEvs := (newJobsOf jobs prev).map (fun j => Ev.notifyJob j.id)
        match env.writeOk with
        | .error m => (notifyEvs, .error m)
        | .ok _ => (notifyEvs ++ [Ev.persist, Ev.notifySummary], .ok ())
      | _ => ([], .error mapErrMsg)

/-- Result of one `runTracker()` invocation: `process.exit` with a code,
normal completion, or a raised error. -/
inductive RunResult where
  | exited (code : Nat) : RunResult
  | ok : RunResult
  | raised (msg : String) : RunResult
deriving DecidableEq, Repr

/-- `runTracker` (lines 37-148): the config check and `process.exit(1)`
(lines 42-45), browser launch (line 47), context and page creation
(lines 48-52, before the `try`, so not protected by the `finally`), then
the `try`/`catch`/`finally`: on a `tryBody` error the catch block sends
one failure notification (best-effort) and re-raises after the `finally`
closes the browser. -/
def runTracker (env : Env) : List Ev × RunResult :=
  if env.token = "" ∨ env.chatId = "" then ([], .exited 1)
  else
    match env.launchOk with
    | .error m => ([], .raised m)
    | .ok _ =>
      match env.ctxOk with
      | .error m => ([Ev.launch], .raised m)
      | .ok _ =>
        match env.pageOk with
        | .error m => ([Ev.launch], .raised m)
        | .ok _ =>
          match tryBody env with
          | (evs, .ok _) => (Ev.launch :: evs ++ [Ev.closeBrowser], .ok)
          | (evs, .error m) =>
            (Ev.launch :: evs ++ [Ev.notifyFailure (failMsg m), Ev.closeBrowser],
              .raised m)

/-- Line 150: `runTracker().catch(() => process.exit(1))` — the exit code
of the whole process (0 on success, the explicit code on `process.exit`,
1 on any raised error). -/
def runMain (env : Env) : List Ev × Nat :=
  match runTracker env with
  | (evs, .exited c) => (evs, c)
  | (evs, .ok) => (evs, 0)
  | (evs, .raised _) => (evs, 1)

/-- Bool classifier for failure-notification events. -/
def isFailureEv : Ev → Bool
  | .notifyFailure _ => true
  | _ => false

/-! ## Concrete sample inputs used to exercise the theorems -/

/-- A record with the given id and title and empty free-text fields. -/
def mkRec (id title : String) : JobRecord :=
  ⟨id, title, "", "", "", "", "", "", ""⟩

/-- A record with the given id, title and salary. -/
def mkRecSal (id title salary : String) : JobRecord :=
  ⟨id, title, "", "", "", "", salary, "", ""⟩

/-- An environment in which every external call succeeds and the state
file is absent. -/
def baseEnv : Env :=
  { token := "token", chatId := "chat", launchOk := .ok (), ctxOk := .ok ()
    pageOk := .ok (), navOk := .ok (), evalOk := .ok []
    fileContent := none, writeOk := .ok (), notifyOk := fun _ => true
    now := "2026-10-11T00:00:00.000Z" }

/-- A listing element with every field present. -/
def sampleElem : Elem :=
  { linkHref := some "/Job/v1?action=search", title := some " ED Consultant "
    grade := some "Consultant", employer := some "Some Trust"
    location := some "Leeds", speciality := some "Speciality: Emergency Medicine"
    salary := some "Salary: £99,891", }

/-- An environment whose scrape finds `sampleElem` once. -/
def envOneJob : Env := { baseEnv with evalOk := .ok [sampleElem] }

/-- An environment in which context creation fails. -/
def envCtxErr : Env := { baseEnv with ctxOk := .error "browser context failure" }

/-- An environment in which navigation times out. -/
def envNavErr : Env :=
  { baseEnv with navOk := .error "page.goto: Timeout 60000ms exceeded." }

/-- An environment without the bot token. -/
def envNoToken : Env := { baseEnv with token := "" }

/-- An environment whose state file parses to a non-array JSON value. -/
def envObjFile : Env :=
  { baseEnv with fileContent := some (Json.obj [("jobs", Json.arr [])]) }

/-- A listing element whose title text is blank but whose other fields are
all present. -/
def eBlankTitle : Elem :=
  { linkHref := some "/Job/v9", title := some "   ", grade := some "ST3"
    location := some "York", employer := some "Some Trust"
    speciality := some "Speciality: EM", salary := some "Salary: £60k" }

/-- A listing element without an anchor (href is missing). -/
def eNoHref1 : Elem :=
  { linkHref := none, title := some "Locum SHO  (A&E)!", grade := some "SHO"
    employer := some "X", location := some "Y", speciality := none
    salary := none }

/-- A listing element with an empty href attribute and the same title as
`eNoHref1` up to surrounding whitespace, all other fields different. -/
def eNoHref2 : Elem :=
  { linkHref := some "", title := some "  Locum SHO  (A&E)!  ", grade := none
    employer := none, location := none, speciality := some "sp"
    salary := some "sa" }

/-- A notification-outcome oracle under which every send fails. -/
def allSendsFail : Nat → Bool := fun _ => false

/-! ## Helper lemmas about the merge map -/

theorem keys_overwrite (m : List (String × JobRecord)) (k : String) (v : JobRecord) :
    (m.map (fun p => if p.1 = k then (k, v) else p)).map Prod.fst = m.map Prod.fst := by
  induction m with
  | nil => rfl
  | cons p t ih =>
    by_cases h : p.1 = k
    · simp [h, ih]
    · simp [h, ih]

theorem keys_mapSet (m : List (String × JobRecord)) (k : String) (v : JobRecord) :
    (mapSet m k v).map Prod.fst =
      if k ∈ m.map Prod.fst then m.map Prod.fst else m.map Prod.fst ++ [k] := by
  by_cases h : k ∈ m.map Prod.fst
  · rw [if_pos h]
    unfold mapSet
    rw [if_pos h]
    exact keys_overwrite m k v
  · rw [if_neg h]
    unfold mapSet
    rw [if_neg h]
    simp

theorem mem_keys_mapSet (m : List (String × JobRecord)) (k a : String) (v : JobRecord) :
    a ∈ (mapSet m k v).map Prod.fst ↔ a ∈ m.map Prod.fst ∨ a = k := by
  rw [keys_mapSet]
  by_cases h : k ∈ m.map Prod.fst
  · simp only [if_pos h]
    constructor
    · exact Or.inl
    · rintro (ha | rfl)
      · exact ha
      · exact h
  · simp [if_neg h]

theorem nodup_keys_mapSet (m : List (String × JobRecord)) (k : String) (v : JobRecord)
    (h : (m.map Prod.fst).Nodup) : ((mapSet m k v).map Prod.fst).Nodup := by
  rw [keys_mapSet]
  by_cases hk : k ∈ m.map Prod.fst
  · simpa [if_pos hk] using h
  · simp only [if_neg hk]
    rw [List.nodup_append]
    refine ⟨h, List.nodup_singleton k, ?_⟩
    intro a ha hak
    rw [List.mem_singleton] at hak
    exact hk (hak ▸ ha)

theorem lookup_cons (a k : String) (v : JobRecord) (t : List (String × JobRecord)) :
    List.lookup a ((k, v) :: t) = if a = k then some v else List.lookup a t := by
  by_cases h : a = k
  · subst h
    simp [List.lookup]
  · have hb : (a == k) = false := beq_eq_false_iff_ne.mpr h
    simp [List.lookup, hb, h]

theorem lookup_overwrite (m : List (String × JobRecord)) (k : String) (v : JobRecord)
    (h : k ∈ m.map Prod.fst) :
    List.lookup k (m.map (fun p => if p.1 = k then (k, v) else p)) = some v := by
  induction m with
  | nil => simp at h
  | cons p t ih =>
    rcases p with ⟨pk, pv⟩
    by_cases hp : pk = k
    · subst hp
      simp only [List.map_cons, if_pos]
      rw [lookup_cons]
      simp
    · have ht : k ∈ t.map Prod.fst := by
        rw [List.map_cons] at h
        rcases List.mem_cons.mp h with h1 | h1
        · exact absurd h1.symm hp
        · exact h1
      have hkp : ¬ k = pk := fun e => hp e.symm
      simp only [List.map_cons, if_neg hp]
      rw [lookup_cons]
      simp only [if_neg hkp]
      exact ih ht

theorem lookup_append_last (m : List (String × JobRecord)) (k : String) (v : JobRecord)
    (h : k ∉ m.map Prod.fst) :
    List.lookup k (m ++ [(k, v)]) = some v := by
  induction m with
  | nil => simp [lookup_cons]
  | cons p t ih =>
    rcases p with ⟨pk, pv⟩
    have hp : k ≠ pk := fun e => h (by simp [e])
    have ht : k ∉ t.map Prod.fst := fun e => h (by simp [e])
    rw [List.cons_append, lookup_cons]
    simp only [if_neg hp]
    exact ih ht

theorem lookup_overwrite_ne (m : List (String × JobRecord)) (k a : String)
    (v : JobRecord) (h : a ≠ k) :
    List.lookup a (m.map (fun p => if p.1 = k then (k, v) else p)) =
      List.lookup a m := by
  induction m with
  | nil => rfl
  | cons p t ih =>
    rcases p with ⟨pk, pv⟩
    by_cases hp : pk = k
    · subst hp
      simp only [List.map_cons, if_pos]
      rw [lookup_cons, lookup_cons]
      simp only [if_neg h]
      exact ih
    · simp only [List.map_cons, if_neg hp]
      rw [lookup_cons, lookup_cons]
      by_cases hap : a = pk
      · simp [hap]
      · simp only [if_neg hap]
        exact ih

theorem lookup_append_ne (m : List (String × JobRecord)) (k a : String)
    (v : JobRecord) (h : a ≠ k) :
    List.lookup a (m ++ [(k, v)]) = List.lookup a m := by
  induction m with
  | nil => simp [lookup_cons, h]
  | cons p t ih =>
    rcases p with ⟨pk, pv⟩
    rw [List.cons_append, lookup_cons, lookup_cons]
    by_cases hap : a = pk
    · simp [hap]
    · simp only [if_neg hap]
      exact ih

theorem lookup_mapSet_self (m : List (String × JobRecord)) (k : String) (v : JobRecord) :
    List.lookup k (mapSet m k v) = some v := by
  unfold mapSet
  by_cases h : k ∈ m.map Prod.fst
  · rw [if_pos h]
    exact lookup_overwrite m k v h
  · rw [if_neg h]
    exact lookup_append_last m k v h

theorem lookup_mapSet_ne (m : List (String × JobRecord)) (k a : String) (v : JobRecord)
    (h : a ≠ k) : List.lookup a (mapSet m k v) = List.lookup a m := by
  unfold mapSet
  split
  · exact lookup_overwrite_ne m k a v h
  · exact lookup_append_ne m k a v h

theorem setAll_cons (m : List (String × JobRecord)) (j : JobRecord) (t : List JobRecord) :
    setAll m (j :: t) = setAll (mapSet m j.id j) t := rfl

theorem mem_keys_setAll (l : List JobRecord) (m : List (String × JobRecord)) (a : String) :
    a ∈ (setAll m l).map Prod.fst ↔
      a ∈ m.map Prod.fst ∨ a ∈ l.map JobRecord.id := by
  induction l generalizing m with
  | nil => simp [setAll]
  | cons j t ih =>
    rw [setAll_cons, ih, mem_keys_mapSet]
    simp only [List.map_cons, List.mem_cons]
    tauto

theorem nodup_keys_setAll (l : List JobRecord) (m : List (String × JobRecord))
    (h : (m.map Prod.fst).Nodup) : ((setAll m l).map Prod.fst).Nodup := by
  induction l generalizing m with
  | nil => exact h
  | cons j t ih =>
    rw [setAll_cons]
    exact ih _ (nodup_keys_mapSet m j.id j h)

theorem lastWith_nil (a : String) : lastWith [] a = none := rfl

theorem lookup_setAll (l : List JobRecord) (m : List (String × JobRecord)) (a : String) :
    List.lookup a (setAll m l) = (lastWith l a <|> List.lookup a m) := by
  induction l generalizing m with
  | nil => simp [setAll, lastWith_nil]
  | cons j t ih =>
    rw [setAll_cons, ih]
    by_cases hj : j.id = a
    · have hfil : (j :: t).filter (fun r => r.id == a) =
          j :: t.filter (fun r => r.id == a) := by
        rw [List.filter_cons_of_pos]
        simp [hj]
      cases hft : t.filter (fun r => r.id == a) with
      | nil =>
        have hlt : lastWith t a = none := by simp [lastWith, hft]
        have hself : List.lookup a (mapSet m j.id j) = some j := by
          rw [hj]
          exact lookup_mapSet_self m a j
        simp [lastWith, hfil, hft, hlt, hself]
      | cons x xs =>
        have hlt : lastWith (j :: t) a = lastWith t a := by
          simp [lastWith, hfil, hft, List.getLast?_cons_cons]
        rw [hlt]
        cases hl : lastWith t a with
        | none =>
          have : (t.filter (fun r => r.id == a)).getLast? = none := hl
          rw [hft] at this
          simp [List.getLast?_isSome] at this
        | some r => simp
    · have hfil : (j :: t).filter (fun r => r.id == a) =
          t.filter (fun r => r.id == a) := by
        rw [List.filter_cons_of_neg]
        simp [hj]
      have hlt : lastWith (j :: t) a = lastWith t a := by simp [lastWith, hfil]
      rw [hlt, lookup_mapSet_ne m j.id a j (fun e => hj e.symm)]

theorem lastWith_isSome_of_mem (l : List JobRecord) (a : String)
    (h : a ∈ l.map JobRecord.id) : ∃ r, lastWith l a = some r := by
  have hne : l.filter (fun r => r.id == a) ≠ [] := by
    intro hnil
    rw [List.filter_eq_nil_iff] at hnil
    rcases List.mem_map.mp h with ⟨r, hr, hid⟩
    exact hnil r hr (by simp [hid])
  rcases Option.isSome_iff_exists.mp (List.getLast?_isSome.mpr hne) with ⟨r, hr⟩
  exact ⟨r, hr⟩

/-! ## Claim theorems -/

/-- C1: for every current sequence and previous store, the merged store
holds exactly one record per id, its id set is the union of the ids of
previous and current, and every id occurring in the current sequence maps
to the current run's (last) record with that id — so on ids present in
both stores the current version wins. -/
theorem merged_store_spec (prev cur : List JobRecord) (k : String) :
    ((mergeJobs prev cur).map Prod.fst).Nodup
    ∧ (k ∈ (mergeJobs prev cur).map Prod.fst ↔
        k ∈ prev.map JobRecord.id ∨ k ∈ cur.map JobRecord.id)
    ∧ (k ∈ cur.map JobRecord.id →
        List.lookup k (mergeJobs prev cur) = lastWith cur k) := by
  refine ⟨?_, ?_, ?_⟩
  · exact nodup_keys_setAll cur _ (nodup_keys_setAll prev [] (by simp))
  · unfold mergeJobs
    rw [mem_keys_setAll, mem_keys_setAll]
    simp
  · intro hk
    rcases lastWith_isSome_of_mem cur k hk with ⟨r, hr⟩
    unfold mergeJobs
    rw [lookup_setAll, hr]
    simp

/-- Closed instance of `merged_store_spec`: a previous store with ids
`a`, `b` merged with a current run carrying an update of `a` and a new
record `c`. -/
theorem merged_store_spec_witness :
    ((mergeJobs [mkRec "a" "Old", mkRec "b" "B"]
        [mkRecSal "a" "A" "pay", mkRec "c" "C"]).map Prod.fst).Nodup
    ∧ ("a" ∈ (mergeJobs [mkRec "a" "Old", mkRec "b" "B"]
        [mkRecSal "a" "A" "pay", mkRec "c" "C"]).map Prod.fst ↔
        "a" ∈ [mkRec "a" "Old", mkRec "b" "B"].map JobRecord.id ∨
        "a" ∈ [mkRecSal "a" "A" "pay", mkRec "c" "C"].map JobRecord.id)
    ∧ List.lookup "a" (mergeJobs [mkRec "a" "Old", mkRec "b" "B"]
        [mkRecSal "a" "A" "pay", mkRec "c" "C"]) = some (mkRecSal "a" "A" "pay") := by
  have h := merged_store_spec [mkRec "a" "Old", mkRec "b" "B"]
    [mkRecSal "a" "A" "pay", mkRec "c" "C"] "a"
  exact ⟨h.1, h.2.1, (h.2.2 (by decide)).trans (by decide)⟩

/-- C2: the new-records output of the diff is the current sequence
filtered to the ids absent from the previous store's id set, and as a
filtrate it is a sublist of the current sequence (relative order kept). -/
theorem new_records_spec (prev cur : List JobRecord) (j : JobRecord) :
    (diffNew cur prev).Sublist cur
    ∧ (j ∈ diffNew cur prev ↔ j ∈ cur ∧ j.id ∉ prev.map JobRecord.id) := by
  constructor
  · exact List.filter_sublist cur
  · rw [diffNew, List.mem_filter]
    simp [List.elem_iff]

theorem decode_encode_job (r : JobRecord) : decodeJob (encodeJob r) = some r := rfl

/-- C7: serializing a record store and parsing it back reproduces the
store, field for field. The text layer (`JSON.stringify` / `JSON.parse`
and the file write/read) is the external persistence collaborator and is
modelled as the identity on parsed documents; this theorem covers the
repository's own encoding: the array of nine-field record objects. -/
theorem save_load_roundtrip (store : List JobRecord) :
    decodeJobs (encodeJobs store) = some store := by
  suffices h : decodeJobsList (store.map encodeJob) = some store by
    simpa [decodeJobs, encodeJobs] using h
  induction store with
  | nil => rfl
  | cons r t ih => simp [decodeJobsList, decode_encode_job, ih]

/-- C8: a listing element whose title is missing or blank after trimming
is dropped: its own extraction yields nothing, and removing it from any
position of the element sequence leaves the extracted records unchanged,
whatever its other fields hold. -/
theorem empty_title_excluded (b : String) (e : Elem) (now : String)
    (es1 es2 : List Elem) (h : optText e.title = "") :
    extractOne b e now = none
    ∧ extract b (es1 ++ e :: es2) now = extract b (es1 ++ es2) now := by
  have h1 : extractOne b e now = none := by
    unfold extractOne
    simp [h]
  refine ⟨h1, ?_⟩
  unfold extract
  rw [List.filterMap_append, List.filterMap_append]
  simp [List.filterMap_cons, h1]

/-- Closed instance of `empty_title_excluded`: `eBlankTitle` has every
other field present yet is excluded. -/
theorem empty_title_excluded_witness :
    extractOne baseUrl eBlankTitle "T" = none
    ∧ extract baseUrl ([sampleElem] ++ eBlankTitle :: []) "T" =
        extract baseUrl ([sampleElem] ++ []) "T" :=
  empty_title_excluded baseUrl eBlankTitle "T" [sampleElem] [] (by decide)

theorem extractOne_id (b now : String) (e : Elem)
    (he : e.linkHref.getD "" = "") (hne : optText e.title ≠ "") :
    (extractOne b e now).map JobRecord.id = some (slug (optText e.title)) := by
  unfold extractOne
  simp only [if_neg hne, Option.map_some]
  rw [he]
  rfl

/-- C9: when the pre-query part of the href is empty the id falls back to
the slug of the (trimmed) title — a function of the title alone, so two
elements with identical titles and empty hrefs get identical ids whatever
their other fields, timestamps or base URL are; when the pre-query part
is non-empty it is itself the id (query string stripped). -/
theorem fallback_id_deterministic (e1 e2 : Elem) (now1 now2 b1 b2 : String)
    (h1 : e1.linkHref.getD "" = "") (h2 : e2.linkHref.getD "" = "")
    (ht : optText e1.title = optText e2.title) (hne : optText e1.title ≠ "")
    (href ttl : String) (hq : stripQuery href ≠ "") :
    (extractOne b1 e1 now1).map JobRecord.id = some (slug (optText e1.title))
    ∧ (extractOne b1 e1 now1).map JobRecord.id =
        (extractOne b2 e2 now2).map JobRecord.id
    ∧ deriveId href ttl = stripQuery href := by
  have hne2 : optText e2.title ≠ "" := ht ▸ hne
  refine ⟨extractOne_id b1 now1 e1 h1 hne, ?_, ?_⟩
  · rw [extractOne_id b1 now1 e1 h1 hne, extractOne_id b2 now2 e2 h2 hne2, ht]
  · unfold deriveId
    rw [if_neg hq]

/-- Closed instance of `fallback_id_deterministic`: two elements sharing a
title, one with no anchor and one with an empty href, receive the same
slug id; a href with a query string keeps only its path part. -/
theorem fallback_id_deterministic_witness :
    (extractOne baseUrl eNoHref1 "T1").map JobRecord.id =
        some (slug (optText eNoHref1.title))
    ∧ (extractOne baseUrl eNoHref1 "T1").map JobRecord.id =
        (extractOne baseUrl eNoHref2 "T2").map JobRecord.id
    ∧ deriveId "/Job/v2?action=search" "ttl" = stripQuery "/Job/v2?action=search" :=
  fallback_id_deterministic eNoHref1 eNoHref2 "T1" "T2" baseUrl baseUrl
    (by decide) (by decide) (by decide) (by decide) "/Job/v2?action=search" "ttl"
    (by decide)

/-! ## Run-level lemmas and claim theorems -/

theorem tryBody_error_events (env : Env) (m : String)
    (h : (tryBody env).2 = .error m) :
    ∃ ids : List String, (tryBody env).1 = ids.map Ev.notifyJob := by
  unfold tryBody at h ⊢
  cases hn : env.navOk with
  | error mm => exact ⟨[], rfl⟩
  | ok u =>
    cases he : env.evalOk with
    | error mm => exact ⟨[], rfl⟩
    | ok elems =>
      cases hf : env.fileContent.getD (Json.arr []) with
      | arr prev =>
        cases hw : env.writeOk with
        | error mm =>
          refine ⟨(newJobsOf (extract baseUrl elems env.now) prev).map JobRecord.id, ?_⟩
          simp [List.map_map]
        | ok u2 =>
          rw [hn, he, hf, hw] at h
          simp at h
      | null => exact ⟨[], rfl⟩
      | bool b => exact ⟨[], rfl⟩
      | num n => exact ⟨[], rfl⟩
      | str s => exact ⟨[], rfl⟩
      | obj l => exact ⟨[], rfl⟩

theorem runTracker_of_tryBody_error (env : Env) (m : String)
    (htok : env.token ≠ "") (hchat : env.chatId ≠ "")
    (hl : env.launchOk = .ok ()) (hc : env.ctxOk = .ok ()) (hp : env.pageOk = .ok ())
    (herr : (tryBody env).2 = .error m) :
    runTracker env =
      (Ev.launch :: ((tryBody env).1 ++ [Ev.notifyFailure (failMsg m), Ev.closeBrowser]),
        .raised m) := by
  unfold runTracker
  rw [if_neg (not_or.mpr ⟨htok, hchat⟩), hl, hc, hp]
  cases htb : tryBody env with
  | mk evs r =>
    rw [htb] at herr
    cases r with
    | ok u => simp at herr
    | error mm =>
      have hmm : mm = m := by simpa using herr
      subst hmm
      rfl

/-- C4 (amended): if any step inside the monitored `try` block —
navigation, scraping, the state read and id-set construction, or the
store write itself — throws with message `m`, then exactly one failure
notification (carrying `m` inside the fixed failure text) is attempted,
no store write happens, the error is re-raised, and the process exits
with the non-zero code 1. (As originally stated the claim also covered
errors thrown while creating the browser context or page; those propagate
before the `try`, so no failure notification is attempted — see the
counterexample.) -/
theorem run_failure_path (env : Env) (m : String)
    (htok : env.token ≠ "") (hchat : env.chatId ≠ "")
    (hl : env.launchOk = .ok ()) (hc : env.ctxOk = .ok ()) (hp : env.pageOk = .ok ())
    (herr : (tryBody env).2 = .error m) :
    Ev.persist ∉ (runTracker env).1
    ∧ (runTracker env).1.countP isFailureEv = 1
    ∧ (runTracker env).1.count (Ev.notifyFailure (failMsg m)) = 1
    ∧ (runTracker env).2 = .raised m
    ∧ (runMain env).2 = 1 := by
  obtain ⟨ids, hevs⟩ := tryBody_error_events env m herr
  have hrt := runTracker_of_tryBody_error env m htok hchat hl hc hp herr
  refine ⟨?_, ?_, ?_, ?_, ?_⟩
  · rw [hrt, hevs]
    simp
  · rw [hrt, hevs]
    simp [List.countP_cons, List.countP_append, List.countP_map, isFailureEv,
      Function.comp]
  · rw [hrt, hevs]
    have h0 : (ids.map Ev.notifyJob).count (Ev.notifyFailure (failMsg m)) = 0 := by
      rw [List.count_eq_zero]
      simp
    simp [List.count_cons, List.count_append, h0]
  · rw [hrt]
  · unfold runMain
    rw [hrt]

/-- Closed instance of `run_failure_path`: a navigation timeout. -/
theorem run_failure_path_witness :
    Ev.persist ∉ (runTracker envNavErr).1
    ∧ (runTracker envNavErr).1.countP isFailureEv = 1
    ∧ (runTracker envNavErr).1.count
        (Ev.notifyFailure (failMsg "page.goto: Timeout 60000ms exceeded.")) = 1
    ∧ (runTracker envNavErr).2 = .raised "page.goto: Timeout 60000ms exceeded."
    ∧ (runMain envNavErr).2 = 1 :=
  run_failure_path envNavErr "page.goto: Timeout 60000ms exceeded."
    (by decide) (by decide) rfl rfl rfl rfl

/-- C4, the claim as stated, is false at a concrete input: an error while
creating the browser context is a step of the run that throws before
persistence, yet the run attempts no failure notification at all (the
creation happens before the `try`, so the catch block never runs). -/
theorem run_failure_no_notification_cex :
    (runTracker envCtxErr).2 = .raised "browser context failure"
    ∧ (runTracker envCtxErr).1.countP isFailureEv = 0
    ∧ Ev.persist ∉ (runTracker envCtxErr).1
    ∧ (runMain envCtxErr).2 = 1 := by
  decide

theorem tryBody_success (env : Env) (elems : List Elem) (prev : List Json)
    (hn : env.navOk = .ok ()) (he : env.evalOk = .ok elems)
    (hf : env.fileContent.getD (Json.arr []) = Json.arr prev)
    (hw : env.writeOk = .ok ()) :
    tryBody env =
      ((newJobsOf (extract baseUrl elems env.now) prev).map (fun j => Ev.notifyJob j.id)
          ++ [Ev.persist, Ev.notifySummary],
        .ok ()) := by
  unfold tryBody
  rw [hn, he, hf, hw]

/-- C3 (amended): on a successful run the store write happens after every
per-record notification has been attempted but before the run-summary
notification, and the event sequence does not depend on whether any
notification succeeds (each send's outcome is swallowed). The original
claim placed the write after the summary notification as well; the
counterexample shows the write precedes the summary. -/
theorem persist_after_record_notifies (env : Env) (f : Nat → Bool)
    (elems : List Elem) (prev : List Json)
    (htok : env.token ≠ "") (hchat : env.chatId ≠ "")
    (hl : env.launchOk = .ok ()) (hc : env.ctxOk = .ok ()) (hp : env.pageOk = .ok ())
    (hn : env.navOk = .ok ()) (he : env.evalOk = .ok elems)
    (hf : env.fileContent.getD (Json.arr []) = Json.arr prev)
    (hw : env.writeOk = .ok ()) :
    (runTracker env).1 =
      Ev.launch ::
        ((newJobsOf (extract baseUrl elems env.now) prev).map (fun j => Ev.notifyJob j.id)
          ++ [Ev.persist, Ev.notifySummary, Ev.closeBrowser])
    ∧ runTracker { env with notifyOk := f } = runTracker env := by
  constructor
  · unfold runTracker
    rw [if_neg (not_or.mpr ⟨htok, hchat⟩), hl, hc, hp,
      tryBody_success env elems prev hn he hf hw]
    simp
  · rfl

/-- Closed instance of `persist_after_record_notifies`: one new job, every
send failing, same trace. -/
theorem persist_after_record_notifies_witness :
    (runTracker envOneJob).1 =
      [Ev.launch, Ev.notifyJob "/Job/v1", Ev.persist, Ev.notifySummary,
        Ev.closeBrowser]
    ∧ runTracker { envOneJob with notifyOk := allSendsFail } = runTracker envOneJob := by
  have h := persist_after_record_notifies envOneJob allSendsFail [sampleElem] []
    (by decide) (by decide) rfl rfl rfl rfl rfl rfl rfl
  exact ⟨h.1.trans (by decide), h.2⟩

/-- C3, the claim as stated, is false at a concrete input: in a successful
run with one new job the write to the store happens strictly before the
run-summary notification, not after the whole Notifier step. -/
theorem persist_before_summary_cex :
    (runTracker envOneJob).1 =
      [Ev.launch, Ev.notifyJob "/Job/v1", Ev.persist, Ev.notifySummary,
        Ev.closeBrowser]
    ∧ (runTracker envOneJob).1.indexOf Ev.persist <
        (runTracker envOneJob).1.indexOf Ev.notifySummary := by
  decide

/-- C5 (amended): once context and page creation have succeeded, the
browser is closed last on every exit path of the run, whether the `try`
body completes or throws (the `finally` covers both). The original claim
also covered errors raised while creating the browser context or page;
those escape before the `try`/`finally`, leaving the browser open — see
the counterexample. -/
theorem browser_closed_after_page_ok (env : Env)
    (htok : env.token ≠ "") (hchat : env.chatId ≠ "")
    (hl : env.launchOk = .ok ()) (hc : env.ctxOk = .ok ()) (hp : env.pageOk = .ok ()) :
    Ev.launch ∈ (runTracker env).1
    ∧ (runTracker env).1.getLast? = some Ev.closeBrowser := by
  unfold runTracker
  rw [if_neg (not_or.mpr ⟨htok, hchat⟩), hl, hc, hp]
  cases htb : tryBody env with
  | mk evs r =>
    cases r with
    | ok u =>
      constructor
      · show Ev.launch ∈ Ev.launch :: (evs ++ [Ev.closeBrowser])
        simp
      · show (Ev.launch :: (evs ++ [Ev.closeBrowser])).getLast? = some Ev.closeBrowser
        rw [← List.cons_append]
        exact List.getLast?_concat _
    | error mm =>
      constructor
      · show Ev.launch ∈
          Ev.launch :: (evs ++ [Ev.notifyFailure (failMsg mm), Ev.closeBrowser])
        simp
      · show (Ev.launch ::
            (evs ++ ([Ev.notifyFailure (failMsg mm)] ++ [Ev.closeBrowser]))).getLast? =
          some Ev.closeBrowser
        rw [← List.append_assoc, ← List.cons_append]
        exact List.getLast?_concat _

/-- Closed instance of `browser_closed_after_page_ok`, on a run whose
navigation fails. -/
theorem browser_closed_after_page_ok_witness :
    Ev.launch ∈ (runTracker envNavErr).1
    ∧ (runTracker envNavErr).1.getLast? = some Ev.closeBrowser :=
  browser_closed_after_page_ok envNavErr (by decide) (by decide) rfl rfl rfl

/-- C5, the claim as stated, is false at a concrete input: when creating
the browser context throws, the browser was launched but the run ends
without closing it. -/
theorem browser_unclosed_cex :
    Ev.launch ∈ (runTracker envCtxErr).1
    ∧ Ev.closeBrowser ∉ (runTracker envCtxErr).1
    ∧ (runTracker envCtxErr).2 = .raised "browser context failure" := by
  decide

/-- C6 (amended): with the bot token or the chat id missing, the process
exits immediately at startup with the non-zero code 1 and no browser is
launched. This code is the same code 1 used for an uncaught run failure,
not a distinct one — see the counterexample. -/
theorem missing_config_exit (env : Env) (h : env.token = "" ∨ env.chatId = "") :
    runMain env = ([], 1) ∧ Ev.launch ∉ (runMain env).1 := by
  have hrt : runTracker env = ([], .exited 1) := by
    unfold runTracker
    rw [if_pos h]
  have hm : runMain env = ([], 1) := by
    unfold runMain
    rw [hrt]
  refine ⟨hm, ?_⟩
  rw [hm]
  simp

/-- Closed instance of `missing_config_exit`: the bot token is absent. -/
theorem missing_config_exit_witness :
    runMain envNoToken = ([], 1) ∧ Ev.launch ∉ (runMain envNoToken).1 :=
  missing_config_exit envNoToken (Or.inl (by decide))

/-- C6, the claim as stated, is false at a concrete input: the startup
exit code for missing credentials is 1, and the exit code after an
uncaught run failure (here a navigation timeout) is also 1, so the two
are not distinct. -/
theorem config_exit_code_not_distinct_cex :
    (runMain envNoToken).2 = 1
    ∧ (runMain envNavErr).2 = 1
    ∧ (runTracker envNavErr).2 = .raised "page.goto: Timeout 60000ms exceeded." := by
  decide

/-- C10: a state file that parses to a non-array JSON value is not
treated as first-run state: building the previous-id set throws a
`TypeError`, so the run takes the failure path — one failure notification,
nothing persisted, error re-raised, exit code 1 — whereas a missing or
unparsable file behaves exactly like an empty store. -/
theorem non_array_state_fails (env : Env) (j : Json) (elems : List Elem)
    (htok : env.token ≠ "") (hchat : env.chatId ≠ "")
    (hl : env.launchOk = .ok ()) (hc : env.ctxOk = .ok ()) (hp : env.pageOk = .ok ())
    (hn : env.navOk = .ok ()) (he : env.evalOk = .ok elems)
    (hfile : env.fileContent = some j) (hj : isArr j = false) :
    (runTracker env).1 =
      [Ev.launch, Ev.notifyFailure (failMsg mapErrMsg), Ev.closeBrowser]
    ∧ Ev.persist ∉ (runTracker env).1
    ∧ (runTracker env).2 = .raised mapErrMsg
    ∧ (runMain env).2 = 1
    ∧ runTracker { env with fileContent := none } =
        runTracker { env with fileContent := some (Json.arr []) } := by
  have htb : tryBody env = ([], .error mapErrMsg) := by
    unfold tryBody
    rw [hn, he, hfile]
    cases j with
    | arr l => simp [isArr] at hj
    | null => rfl
    | bool b => rfl
    | num n => rfl
    | str s => rfl
    | obj l => rfl
  have hrt : runTracker env =
      ([Ev.launch, Ev.notifyFailure (failMsg mapErrMsg), Ev.closeBrowser],
        .raised mapErrMsg) := by
    unfold runTracker
    rw [if_neg (not_or.mpr ⟨htok, hchat⟩), hl, hc, hp, htb]
    rfl
  refine ⟨?_, ?_, ?_, ?_, ?_⟩
  · rw [hrt]
  · rw [hrt]
    simp
  · rw [hrt]
  · unfold runMain
    rw [hrt]
  · rfl

/-- Closed instance of `non_array_state_fails`: the state file holds a
JSON object. -/
theorem non_array_state_fails_witness :
    (runTracker envObjFile).1 =
      [Ev.launch, Ev.notifyFailure (failMsg mapErrMsg), Ev.closeBrowser]
    ∧ Ev.persist ∉ (runTracker envObjFile).1
    ∧ (runTracker envObjFile).2 = .raised mapErrMsg
    ∧ (runMain envObjFile).2 = 1
    ∧ runTracker { envObjFile with fileContent := none } =
        runTracker { envObjFile with fileContent := some (Json.arr []) } :=
  non_array_state_fails envObjFile (Json.obj [("jobs", Json.arr [])]) []
    (by decide) (by decide) rfl rfl rfl rfl rfl rfl rfl

end Tracker
